import Mathlib

/-!
Verification of the generic CRUD orchestration layer of a FastAPI template
(soft-delete-aware repository, CRUD service, route builder, and integrity-error
classifier).  The Python source is shallowly embedded: the transactional record
store becomes an explicit `DB` value threaded through every operation, raised
exceptions become `Except AppError`, and SQLAlchemy selects become list
filters.  Each definition mirrors one function of the source
(`src/crud/base.py`, `src/services/base.py`, `src/api/base.py`,
`src/core/application/exceptions.py`).
-/

/-- The persisted entity record (ORM model `User`, from `src/models/user.py`
together with the `id` column of `src/models/base_class.py` and the
`deleted_at` column of the soft-delete mixin).  `deleted_at = none` means
active, `some t` means soft-deleted at time `t` (timestamps are modelled as
naturals). -/
structure UserModel where
  id : String
  username : String
  first_name : String
  second_name : String
  email : String
  deleted_at : Option Nat
deriving DecidableEq, Repr

/-- The record store reached through one session: the committed rows (in
insertion order, oldest first) plus the current clock (`datetime.now(UTC)` is
modelled by reading `now`). -/
structure DB where
  rows : List UserModel
  now : Nat
deriving DecidableEq, Repr

/-- Store invariant enforced by the primary-key constraint on `id`: no two
committed rows share an id. -/
def DB.wf (db : DB) : Prop := (db.rows.map UserModel.id).Nodup

/-- Committing a mutated persistent object: the row with the same primary key
is overwritten in place (SQL UPDATE); if no such row exists the object is
inserted (SQL INSERT).  Used to model `db.add(obj); await db.commit()` on an
object whose identity may already be present. -/
def DB.mergeRow (db : DB) (r : UserModel) : DB :=
  if db.rows.any (fun x => x.id == r.id) then
    { db with rows := db.rows.map (fun x => if x.id == r.id then r else x) }
  else
    { db with rows := db.rows ++ [r] }

/-- Create-input DTO (`UserCreate` in `src/schemas/user.py`): every field,
including `id`, is required. -/
structure UserCreate where
  id : String
  username : String
  first_name : String
  second_name : String
  email : String
deriving DecidableEq, Repr

/-- Update-input DTO (`UserUpdate` in `src/schemas/user.py`): all fields
optional; `none` models a field absent from the patch
(`model_dump(exclude_unset=True)` drops it). -/
structure UserUpdate where
  username : Option String
  first_name : Option String
  second_name : Option String
  email : Option String
deriving DecidableEq, Repr

/-- The `Entity` enum of `src/core/application/exceptions.py`. -/
inductive Entity where
  | USER
deriving DecidableEq, Repr

/-- The `.value` of an `Entity` member. -/
def Entity.value : Entity → String
  | .USER => "User"

/-- The data carried by a SQLAlchemy `IntegrityError` as consumed by
`parse_integrity_error`: `getattr(exc.orig, "constraint_name", None)`,
`getattr(exc.orig, "detail", None)` and `str(exc.orig or exc)`. -/
structure IntegrityError where
  constraint_name : Option String
  detail : Option String
  text : String
deriving DecidableEq, Repr

/-- The JSON-dict payload built by `parse_integrity_error` (key `message`
always present, `constraint` / `fields` / `values` present on some paths). -/
structure ErrContent where
  message : String
  constraint : Option String
  fields : Option String
  values : Option String
deriving DecidableEq, Repr

/-- The exceptions that can cross the layers of the embedded code:
`EntityNotFoundError(entity, id)`, a plain `BaseAppError(message)` (the
"invalid state" failures of the service and the defensive check of the router
both raise this class), the storage engine's `IntegrityError` raised at
commit, and SQLAlchemy's `NoResultFound` / `MultipleResultsFound` raised by
`scalar_one`.  `attributeError` models the Python `AttributeError` that an
attribute access on `None` would raise (provably unreachable). -/
inductive AppError where
  | entityNotFound (entity : Entity) (id_ : Option String)
  | baseAppError (message : String)
  | integrityError (exc : IntegrityError)
  | noResultFound
  | multipleResultsFound
  | attributeError
deriving DecidableEq, Repr

/-- Lexicographic less-or-equal on character lists (by code point), the
text order a SQL `ORDER BY` applies to the id column. -/
def charListLe : List Char → List Char → Bool
  | [], _ => true
  | _ :: _, [] => false
  | c :: cs, d :: ds =>
    if c.toNat < d.toNat then true
    else if d.toNat < c.toNat then false
    else charListLe cs ds

/-- Lexicographic less-or-equal on strings. -/
def strLeb (a b : String) : Bool := charListLe a.data b.data

/-- Insert one record into a list that is sorted by `id` descending
(auxiliary model of the SQL `ORDER BY id DESC`). -/
def insertIdDesc (r : UserModel) : List UserModel → List UserModel
  | [] => [r]
  | x :: xs => if strLeb x.id r.id then r :: x :: xs else x :: insertIdDesc r xs

/-- Sort a list of records by `id` descending (`ORDER BY self.model.id.desc()`;
ids are text, so the order is the lexicographic one on strings). -/
def sortByIdDesc (l : List UserModel) : List UserModel :=
  l.foldr insertIdDesc []

/-- Repository read, `CRUDBase.get` (src/crud/base.py lines 95-108):
`if id_ is None: return None`, then a select filtered on `id == id_` with the
soft-delete hook excluding soft-deleted rows unless
`execution_options(include_deleted=include_removed)` lifts the filter;
`scalar_one_or_none` on the result (`id` is the primary key, so under `DB.wf`
at most one row matches and the first match is the unique one). -/
def CRUDBase.get (db : DB) (id_ : Option String) (include_removed : Bool) :
    Option UserModel :=
  match id_ with
  | none => none
  | some i =>
    (db.rows.filter
      (fun r => r.id == i && (include_removed || r.deleted_at.isNone))).head?

/-- Repository list read, `CRUDBase.get_multi` (src/crud/base.py lines
110-113): no `include_deleted` option, so the soft-delete hook filters
soft-deleted rows out by default; `ORDER BY id DESC`, then `OFFSET skip`
and `LIMIT limit`. -/
def CRUDBase.get_multi (db : DB) (skip limit : Nat) : List UserModel :=
  (((sortByIdDesc (db.rows.filter (fun r => r.deleted_at.isNone))).drop skip).take limit)

/-- Repository read of all rows, `CRUDBase.get_all` (src/crud/base.py lines
115-118). -/
def CRUDBase.get_all (db : DB) (include_removed : Bool) : List UserModel :=
  db.rows.filter (fun r => include_removed || r.deleted_at.isNone)

/-- Text of the storage engine's duplicate-key error for field `f` and value
`v` (what `str(exc.orig)` looks like for asyncpg's UniqueViolationError). -/
def dupText (f v : String) : String :=
  "duplicate key value violates unique constraint" ++ "\n" ++
    "DETAIL:  Key (" ++ f ++ ")=(" ++ v ++ ") already exists."

/-- Detail line of the storage engine's duplicate-key error. -/
def dupDetail (f v : String) : String :=
  "Key (" ++ f ++ ")=(" ++ v ++ ") already exists."

/-- Repository create, `CRUDBase.create` (src/crud/base.py lines 120-126):
builds the model from the dumped input (the `UserCreate` schema carries every
column, `deleted_at` starts as null), then `add` + `commit` + `refresh`.  The
commit raises `IntegrityError` when the INSERT violates the primary-key
constraint `pk_user` or the unique constraint `uq_user_username` (constraint
names follow the naming convention of `src/core/config.py`). -/
def CRUDBase.create (db : DB) (obj_in : UserCreate) :
    Except AppError (UserModel × DB) :=
  let db_obj : UserModel :=
    { id := obj_in.id, username := obj_in.username,
      first_name := obj_in.first_name, second_name := obj_in.second_name,
      email := obj_in.email, deleted_at := none }
  if db.rows.any (fun r => r.id == db_obj.id) then
    .error (.integrityError
      { constraint_name := some "pk_user",
        detail := some (dupDetail "id" db_obj.id),
        text := dupText "id" db_obj.id })
  else if db.rows.any (fun r => r.username == db_obj.username) then
    .error (.integrityError
      { constraint_name := some "uq_user_username",
        detail := some (dupDetail "username" db_obj.username),
        text := dupText "username" db_obj.username })
  else
    .ok (db_obj, { db with rows := db.rows ++ [db_obj] })

/-- Repository update, `CRUDBase.update` (src/crud/base.py lines 128-142):
`setattr` for each field present in the dumped patch, then `add` + `commit` +
`refresh`.  The commit raises `IntegrityError` when the new `username`
collides with a different row. -/
def CRUDBase.update (db : DB) (db_obj : UserModel) (obj_in : UserUpdate) :
    Except AppError (UserModel × DB) :=
  let updated : UserModel :=
    { db_obj with
      username := obj_in.username.getD db_obj.username,
      first_name := obj_in.first_name.getD db_obj.first_name,
      second_name := obj_in.second_name.getD db_obj.second_name,
      email := obj_in.email.getD db_obj.email }
  if db.rows.any (fun r => !(r.id == updated.id) && r.username == updated.username) then
    .error (.integrityError
      { constraint_name := some "uq_user_username",
        detail := some (dupDetail "username" updated.username),
        text := dupText "username" updated.username })
  else
    .ok (updated, db.mergeRow updated)

/-- Repository restore, `CRUDBase.restore` (src/crud/base.py lines 144-151):
`obj.deleted_at = None`, `add`, `commit`, and return the same in-memory
object.  Unlike `soft_remove` there is no post-commit re-read in the source;
the session is configured with `expire_on_commit=False`
(src/core/db/session.py), so the returned object is the committed state. -/
def CRUDBase.restore (db : DB) (obj : UserModel) : UserModel × DB :=
  let obj2 : UserModel := { obj with deleted_at := none }
  (obj2, db.mergeRow obj2)

/-- Repository hard delete, `CRUDBase.remove` (src/crud/base.py lines
153-161): select with `include_deleted=True` filtered on `id == id_`, then
`scalar_one` (raising `NoResultFound` on zero rows and
`MultipleResultsFound` on several), then DELETE + commit, returning the
snapshot of the deleted row. -/
def CRUDBase.remove (db : DB) (id_ : Option String) :
    Except AppError (UserModel × DB) :=
  let found : List UserModel :=
    match id_ with
    | none => []
    | some i => db.rows.filter (fun r => r.id == i)
  match found with
  | [] => .error .noResultFound
  | [obj] =>
    .ok (obj, { db with rows := db.rows.filter (fun r => !(r.id == obj.id)) })
  | _ => .error .multipleResultsFound

/-- Repository soft delete, `CRUDBase.soft_remove` (src/crud/base.py lines
163-173): `obj.deleted_at = datetime.now(UTC)`, `add`, `commit`, then a
post-commit re-read with `include_deleted=True` filtered on the object's id,
finished by `scalar_one`. -/
def CRUDBase.soft_remove (db : DB) (obj : UserModel) :
    Except AppError (UserModel × DB) :=
  let obj2 : UserModel := { obj with deleted_at := some db.now }
  let db2 : DB := db.mergeRow obj2
  match db2.rows.filter (fun r => r.id == obj2.id) with
  | [] => .error .noResultFound
  | [r] => .ok (r, db2)
  | _ => .error .multipleResultsFound

/-- Service read, `CrudServiceBase.get` (src/services/base.py lines 135-143):
delegate to the repository, raising `EntityNotFoundError(entity_name, id)`
when the repository returns `None`.  The returned Python value is the
repository's (nullable) value, so the result type keeps the `Option`. -/
def CrudServiceBase.get (e : Entity) (db : DB) (id_ : Option String)
    (include_removed : Bool) : Except AppError (Option UserModel) :=
  let obj := CRUDBase.get db id_ include_removed
  if obj.isNone then .error (.entityNotFound e id_) else .ok obj

/-- Service list read, `CrudServiceBase.get_all` (src/services/base.py lines
145-146): passthrough. -/
def CrudServiceBase.get_all (_e : Entity) (db : DB) (include_removed : Bool) :
    List UserModel :=
  CRUDBase.get_all db include_removed

/-- Service create, `CrudServiceBase.create` (src/services/base.py lines
148-149): passthrough to the repository create. -/
def CrudServiceBase.create (_e : Entity) (db : DB) (obj_in : UserCreate) :
    Except AppError (UserModel × DB) :=
  CRUDBase.create db obj_in

/-- Service update, `CrudServiceBase.update` (src/services/base.py lines
151-159): resolve the target through `self.get(id_)` (removed records
excluded), re-check for `None` (dead code, since `get` raises instead of
returning `None`), then delegate to the repository update. -/
def CrudServiceBase.update (e : Entity) (db : DB) (id_ : Option String)
    (obj_in : UserUpdate) : Except AppError (UserModel × DB) := do
  let obj_to_update ← CrudServiceBase.get e db id_ false
  match obj_to_update with
  | none => .error (.entityNotFound e id_)
  | some o => CRUDBase.update db o obj_in

/-- Service restore, `CrudServiceBase.restore` (src/services/base.py lines
161-167): resolve through `self.get(id_, True)`; raise
`BaseAppError(f"A {entity} was not soft deleted.")` when `obj.deleted_at` is
null (were `obj` the value `None`, the attribute access itself would raise
`AttributeError`, and the subsequent `if obj is None` check is dead code);
otherwise delegate to the repository restore. -/
def CrudServiceBase.restore (e : Entity) (db : DB) (id_ : Option String) :
    Except AppError (UserModel × DB) := do
  let obj ← CrudServiceBase.get e db id_ true
  match obj with
  | none => .error .attributeError
  | some o =>
    if o.deleted_at.isNone then
      .error (.baseAppError ("A " ++ e.value ++ " was not soft deleted."))
    else
      .ok (CRUDBase.restore db o)

/-- Service delete, `CrudServiceBase.delete` (src/services/base.py lines
169-175): resolve through `self.get(id_, True)`; with `hard_remove` delegate
to the repository remove regardless of soft-delete state; otherwise raise
`BaseAppError(f"A {entity} is already soft deleted.")` when `obj.deleted_at`
is set, else delegate to the repository soft_remove. -/
def CrudServiceBase.delete (e : Entity) (db : DB) (id_ : Option String)
    (hard_remove : Bool) : Except AppError (UserModel × DB) := do
  let obj ← CrudServiceBase.get e db id_ true
  if hard_remove then
    CRUDBase.remove db id_
  else
    match obj with
    | none => .error .attributeError
    | some o =>
      if o.deleted_at.isSome then
        .error (.baseAppError ("A " ++ e.value ++ " is already soft deleted."))
      else
        CRUDBase.soft_remove db o

/-- Python truthiness of an ORM model instance: the class defines neither
`__bool__` nor `__len__`, so `not obj` is `False` for every instance.  The
router's defensive check `if not obj` tests exactly this. -/
def modelTruthy (_o : UserModel) : Bool := true

/-- Router helper `BaseCRUDRouter._create_single_object` (src/api/base.py
lines 272-288): call `service.create` and raise a bare `BaseAppError` (its
default message) if the created object is falsy. -/
def BaseCRUDRouter.create_single_object (e : Entity) (db : DB)
    (obj_create : UserCreate) : Except AppError (UserModel × DB) :=
  match CrudServiceBase.create e db obj_create with
  | .error err => .error err
  | .ok (obj, db2) =>
    if modelTruthy obj then .ok (obj, db2) else .error (.baseAppError "An error occurred.")

/-- Router batch create, the `create_multiple` handler registered by
`BaseCRUDRouter.register_create_multiple` (src/api/base.py lines 194-204):
loop over the inputs in order, creating each through `_create_single_object`
and appending to the result list.  Each successful create has already
committed; an exception aborts the loop and the request, but the store keeps
everything committed so far — the pair returned here is (outcome, final
store). -/
def BaseCRUDRouter.create_multiple (e : Entity) (db : DB) :
    List UserCreate → Except AppError (List UserModel) × DB
  | [] => (.ok [], db)
  | inp :: rest =>
    match BaseCRUDRouter.create_single_object e db inp with
    | .error err => (.error err, db)
    | .ok (obj, db2) =>
      match BaseCRUDRouter.create_multiple e db2 rest with
      | (.ok objs, db3) => (.ok (obj :: objs), db3)
      | (.error err, db3) => (.error err, db3)

/-- Python whitespace class `\s` (ASCII part), as matched by `re`. -/
def isPySpace (c : Char) : Bool :=
  c == ' ' || c == '\t' || c == '\n' || c == '\r' ||
    c == Char.ofNat 11 || c == Char.ofNat 12

/-- Expect the literal characters `lit` at the head of `s`. -/
def stripChars : List Char → List Char → Option (List Char)
  | [], s => some s
  | _ :: _, [] => none
  | c :: cs, d :: ds => if c == d then stripChars cs ds else none

/-- Expect `\s+`: at least one whitespace character; the following literal in
the pattern never starts with whitespace, so the greedy run is equivalent to
the backtracking semantics. -/
def stripWsPlus : List Char → Option (List Char)
  | [] => none
  | c :: rest => if isPySpace c then some (rest.dropWhile isPySpace) else none

/-- Lazy capture `(.*?)` terminated by the literal `)=(`: stop at the first
occurrence; `.` does not match a newline, so a newline before the terminator
kills every longer attempt as well. -/
def capToParenEqParen (acc : List Char) : List Char → Option (List Char × List Char)
  | ')' :: '=' :: '(' :: rest => some (acc.reverse, rest)
  | c :: rest => if c == '\n' then none else capToParenEqParen (c :: acc) rest
  | [] => none

/-- Lazy capture `(.*?)` terminated by `\)\s+already exists`: stop at the
first `)` followed by whitespace and the literal; a newline in the capture
kills every longer attempt. -/
def capToParenAlreadyExists (acc : List Char) : List Char → Option (List Char)
  | ')' :: rest =>
    let ws := rest.takeWhile isPySpace
    let r2 := rest.dropWhile isPySpace
    if !ws.isEmpty && (stripChars "already exists".toList r2).isSome then
      some acc.reverse
    else
      capToParenAlreadyExists (')' :: acc) rest
  | c :: rest => if c == '\n' then none else capToParenAlreadyExists (c :: acc) rest
  | [] => none

/-- Try to match the pattern
`DETAIL:\s+Key\s+\((.*?)\)=\((.*?)\)\s+already exists` at the head of `s`,
returning the two captured groups. -/
def matchDetailAt (s : List Char) : Option (String × String) := do
  let s1 ← stripChars "DETAIL:".toList s
  let s2 ← stripWsPlus s1
  let s3 ← stripChars "Key".toList s2
  let s4 ← stripWsPlus s3
  let s5 ← stripChars "(".toList s4
  let (a, s6) ← capToParenEqParen [] s5
  let b ← capToParenAlreadyExists [] s6
  pure (String.mk a, String.mk b)

/-- Search for the pattern at every start position (the embedding of
`re.search(r"DETAIL:\s+Key\s+\((.*?)\)=\((.*?)\)\s+already exists", text)`). -/
def searchDetailChars : List Char → Option (String × String)
  | [] => none
  | s@(_ :: rest) =>
    match matchDetailAt s with
    | some r => some r
    | none => searchDetailChars rest

/-- String-level entry point of the duplicate-key textual parse. -/
def searchDetailKey (text : String) : Option (String × String) :=
  searchDetailChars text.toList

/-- Python truthiness of an optional string (`if constraint:` and the
`detail or text or ...` chain): `None` and the empty string are falsy. -/
def pyTruthyStr : Option String → Bool
  | none => false
  | some s => s != ""

/-- Structural embedding of Python's `str.startswith`: does `c` start with
the characters of `p`?  (Character-level, matching `constraint.startswith`.) -/
def charsStartWith (c p : String) : Bool :=
  (stripChars p.toList c.toList).isSome

/-- The `constraint_map` of `parse_integrity_error`, in its source order. -/
def constraint_map : List (String × Nat × String) :=
  [("uq_", 409, "Duplicate value for unique field(s)."),
   ("pk_", 409, "Duplicate primary key."),
   ("fk_", 400, "Invalid reference: related record not found."),
   ("ck_", 400, "Invalid value: violates check constraint.")]

/-- The `for prefix ... if constraint.startswith(prefix)` loop: first entry of
`constraint_map` whose key starts the constraint name. -/
def findConstraintRule (c : String) : List (String × Nat × String) → Option (Nat × String)
  | [] => none
  | (p, code, msg) :: rest =>
    if charsStartWith c p then some (code, msg) else findConstraintRule c rest

/-- The integrity-error classifier `parse_integrity_error`
(src/core/application/exceptions.py lines 37-66): prefix-based classification
of the structured constraint name when one is (truthily) present; otherwise
fall through to the textual `DETAIL: Key (...)=(...) already exists` parse
(the fall-through is also taken when a constraint name is present but matches
no known prefix); otherwise the 400 default with `detail or text or
"Database integrity error."` as the message. -/
def parse_integrity_error (exc : IntegrityError) : Nat × ErrContent :=
  let text := exc.text
  let constraint := exc.constraint_name
  let detail := exc.detail
  let fallback : Nat × ErrContent :=
    match searchDetailKey text with
    | some (fields, values) =>
      (409, { message := "Duplicate value for field(s): " ++ fields,
              constraint := none, fields := some fields, values := some values })
    | none =>
      (400, { message :=
                if pyTruthyStr detail then detail.getD ""
                else if text != "" then text
                else "Database integrity error.",
              constraint := none, fields := none, values := none })
  if pyTruthyStr constraint then
    match findConstraintRule (constraint.getD "") constraint_map with
    | some (code, msg) =>
      (code, { message := msg, constraint := constraint,
               fields := none, values := none })
    | none => fallback
  else fallback

/-- Modelled from the spec: the "newest-first" order the spec ascribes to
`get_multi` — records in reverse creation order (creation order is the
insertion order of the store), soft-deleted records excluded, paginated with
`OFFSET skip` / `LIMIT limit`.  Compared against the source's
`ORDER BY id DESC`, whose ids are random hex and carry no creation order. -/
def spec_get_multi_newest_first (db : DB) (skip limit : Nat) : List UserModel :=
  (((db.rows.filter (fun r => r.deleted_at.isNone)).reverse).drop skip).take limit

/-- Sample records, stores, inputs and error data used by the concrete
witness and counterexample theorems below. -/
def uAlice : UserModel := ⟨"u1", "alice", "Ali", "Ce", "a@x.com", none⟩

/-- The same record soft-deleted at time 3. -/
def uAliceDel : UserModel := ⟨"u1", "alice", "Ali", "Ce", "a@x.com", some 3⟩

/-- A second active sample record. -/
def uBob : UserModel := ⟨"u2", "bob", "Bo", "B", "b@x.com", none⟩

/-- A store holding one soft-deleted record. -/
def dbOne : DB := ⟨[uAliceDel], 9⟩

/-- A store holding two active records. -/
def dbActive : DB := ⟨[uAlice, uBob], 5⟩

/-- A record created first whose random hex id sorts high. -/
def rFF : UserModel := ⟨"ff", "fred", "F", "F", "f@x.com", none⟩

/-- A record created second whose random hex id sorts low. -/
def rAA : UserModel := ⟨"aa", "ann", "A", "A", "a@x.com", none⟩

/-- A store whose insertion (creation) order disagrees with id order. -/
def dbC8 : DB := ⟨[rFF, rAA], 0⟩

/-- Batch-create input 1. -/
def cAlice : UserCreate := ⟨"aa", "alice", "A", "L", "a@x.com"⟩

/-- Batch-create input 2: duplicates the username of input 1. -/
def cBobDup : UserCreate := ⟨"bb", "alice", "B", "M", "b@x.com"⟩

/-- Batch-create input 3: never reached. -/
def cCarol : UserCreate := ⟨"cc", "carol", "C", "N", "c@x.com"⟩

/-- The record produced by creating `cAlice`. -/
def recAlice : UserModel := ⟨"aa", "alice", "A", "L", "a@x.com", none⟩

/-- An integrity error carrying a structured constraint name that matches no
known prefix together with a duplicate-key detail text. -/
def cexIntegrity : IntegrityError :=
  ⟨some "xx_weird", none, "DETAIL:  Key (username)=(alice) already exists"⟩

/-- Totality of the lexicographic order. -/
theorem charListLe_total (a b : List Char) :
    charListLe a b = true ∨ charListLe b a = true := by
  induction a generalizing b with
  | nil => left; rfl
  | cons c cs ih =>
    cases b with
    | nil => right; rfl
    | cons d ds =>
      by_cases h1 : c.toNat < d.toNat
      · left
        simp [charListLe, h1]
      · by_cases h2 : d.toNat < c.toNat
        · right
          simp [charListLe, h2]
        · rcases ih ds with h | h
          · left
            simp [charListLe, h1, h2, h]
          · right
            simp [charListLe, h1, h2, h]

/-- Transitivity of the lexicographic order. -/
theorem charListLe_trans {a b c : List Char} (h1 : charListLe a b = true)
    (h2 : charListLe b c = true) : charListLe a c = true := by
  induction a generalizing b c with
  | nil => rfl
  | cons x xs ih =>
    cases b with
    | nil => simp [charListLe] at h1
    | cons y ys =>
      cases c with
      | nil => simp [charListLe] at h2
      | cons z zs =>
        have hc1 : x.toNat < y.toNat ∨
            (¬x.toNat < y.toNat ∧ ¬y.toNat < x.toNat ∧ charListLe xs ys = true) := by
          by_cases hxy : x.toNat < y.toNat
          · left; exact hxy
          · right
            by_cases hyx : y.toNat < x.toNat
            · simp [charListLe, hxy, hyx] at h1
            · simp only [charListLe, if_neg hxy, if_neg hyx] at h1
              exact ⟨hxy, hyx, h1⟩
        have hc2 : y.toNat < z.toNat ∨
            (¬y.toNat < z.toNat ∧ ¬z.toNat < y.toNat ∧ charListLe ys zs = true) := by
          by_cases hyz : y.toNat < z.toNat
          · left; exact hyz
          · right
            by_cases hzy : z.toNat < y.toNat
            · simp [charListLe, hyz, hzy] at h2
            · simp only [charListLe, if_neg hyz, if_neg hzy] at h2
              exact ⟨hyz, hzy, h2⟩
        rcases hc1 with hxy | ⟨hxy, hyx, hrec1⟩ <;>
          rcases hc2 with hyz | ⟨hyz, hzy, hrec2⟩
        · have hxz : x.toNat < z.toNat := by omega
          simp [charListLe, hxz]
        · have hxz : x.toNat < z.toNat := by omega
          simp [charListLe, hxz]
        · have hxz : x.toNat < z.toNat := by omega
          simp [charListLe, hxz]
        · have hxz : ¬x.toNat < z.toNat := by omega
          have hzx : ¬z.toNat < x.toNat := by omega
          simp only [charListLe, if_neg hxz, if_neg hzx]
          exact ih hrec1 hrec2

/-- From a failed comparison the reverse comparison holds. -/
theorem charListLe_of_not_le {a b : List Char} (h : charListLe a b = false) :
    charListLe b a = true := by
  rcases charListLe_total a b with h2 | h2
  · rw [h] at h2
    exact absurd h2 (by simp)
  · exact h2

/-- Membership in `insertIdDesc`: inserting adds exactly the new element. -/
theorem mem_insertIdDesc {a r : UserModel} {l : List UserModel} :
    a ∈ insertIdDesc r l ↔ a = r ∨ a ∈ l := by
  induction l with
  | nil => simp [insertIdDesc]
  | cons x xs ih =>
    unfold insertIdDesc
    by_cases h : strLeb x.id r.id = true
    · simp only [if_pos h, List.mem_cons]
    · simp only [Bool.not_eq_true] at h
      simp only [h, Bool.false_eq_true, if_false, List.mem_cons, ih]
      tauto

/-- Inserting into a descending-by-id list keeps it descending. -/
theorem pairwise_insertIdDesc {r : UserModel} {l : List UserModel}
    (hl : l.Pairwise (fun a b => strLeb b.id a.id = true)) :
    (insertIdDesc r l).Pairwise (fun a b => strLeb b.id a.id = true) := by
  induction l with
  | nil => simp [insertIdDesc]
  | cons x xs ih =>
    rcases List.pairwise_cons.mp hl with ⟨hx, hxs⟩
    unfold insertIdDesc
    by_cases h : strLeb x.id r.id = true
    · simp only [if_pos h]
      refine List.pairwise_cons.mpr ⟨?_, hl⟩
      intro y hy
      rcases List.mem_cons.mp hy with rfl | hy2
      · exact h
      · exact charListLe_trans (hx y hy2) h
    · simp only [Bool.not_eq_true] at h
      simp only [h, Bool.false_eq_true, if_false]
      refine List.pairwise_cons.mpr ⟨?_, ih hxs⟩
      intro y hy
      rcases mem_insertIdDesc.mp hy with rfl | hy2
      · exact charListLe_of_not_le h
      · exact hx y hy2

/-- The sort used by `get_multi` produces a descending-by-id list. -/
theorem pairwise_sortByIdDesc (l : List UserModel) :
    (sortByIdDesc l).Pairwise (fun a b => strLeb b.id a.id = true) := by
  induction l with
  | nil => simp [sortByIdDesc]
  | cons x xs ih => exact pairwise_insertIdDesc ih

/-- The sort used by `get_multi` keeps exactly the input records. -/
theorem mem_sortByIdDesc {a : UserModel} {l : List UserModel} :
    a ∈ sortByIdDesc l ↔ a ∈ l := by
  induction l with
  | nil => simp [sortByIdDesc]
  | cons x xs ih =>
    show a ∈ insertIdDesc x (sortByIdDesc xs) ↔ _
    rw [mem_insertIdDesc, ih]
    exact (List.mem_cons).symm

/-- A filter on an id that no row carries is empty. -/
theorem filter_id_eq_nil {l : List UserModel} {i : String}
    (h : l.any (fun x => x.id == i) = false) :
    l.filter (fun x => x.id == i) = [] := by
  rw [List.filter_eq_nil_iff]
  intro a ha
  simp only [List.any_eq_false] at h
  exact h a ha

/-- Under the primary-key invariant a filter on one id yields at most one
row. -/
theorem filter_id_nodup_cases (l : List UserModel) (i : String)
    (hnd : (l.map UserModel.id).Nodup) :
    l.filter (fun x => x.id == i) = [] ∨
      ∃ x, x.id = i ∧ l.filter (fun x => x.id == i) = [x] := by
  induction l with
  | nil => left; rfl
  | cons a l ih =>
    rw [List.map_cons] at hnd
    rcases List.nodup_cons.mp hnd with ⟨hna, hnd2⟩
    by_cases ha : a.id = i
    · right
      refine ⟨a, ha, ?_⟩
      rw [List.filter_cons_of_pos (by simp [ha])]
      have hnil : l.filter (fun x => x.id == i) = [] := by
        rw [List.filter_eq_nil_iff]
        intro x hx
        simp only [beq_iff_eq]
        intro he
        apply hna
        rw [ha, ← he]
        exact List.mem_map_of_mem _ hx
      rw [hnil]
    · rcases ih hnd2 with h | ⟨x, hx, hfil⟩
      · left
        rw [List.filter_cons_of_neg (by simp [ha]), h]
      · right
        exact ⟨x, hx, by rw [List.filter_cons_of_neg (by simp [ha]), hfil]⟩

/-- After committing a mutated object, the rows filtered on its id are
exactly the committed object (under the primary-key invariant). -/
theorem DB.mergeRow_filter (db : DB) (r : UserModel) (hwf : db.wf) :
    (db.mergeRow r).rows.filter (fun x => x.id == r.id) = [r] := by
  unfold DB.mergeRow
  by_cases hany : db.rows.any (fun x => x.id == r.id) = true
  · simp only [hany, if_true]
    rcases filter_id_nodup_cases db.rows r.id hwf with hnil | ⟨x, hx, hfil⟩
    · exfalso
      rcases List.any_eq_true.mp hany with ⟨x, hxmem, hxid⟩
      have hmem : x ∈ db.rows.filter (fun x => x.id == r.id) :=
        List.mem_filter.mpr ⟨hxmem, hxid⟩
      rw [hnil] at hmem
      exact absurd hmem (List.not_mem_nil x)
    · have hcong : (db.rows.map (fun x => if x.id == r.id then r else x)).filter
          (fun x => x.id == r.id) =
          (db.rows.filter (fun x => x.id == r.id)).map
            (fun x => if x.id == r.id then r else x) := by
        rw [List.filter_map]
        congr 1
        apply List.filter_congr
        intro a _
        by_cases h : a.id = r.id
        · simp [Function.comp, h]
        · simp [Function.comp, h]
      rw [hcong, hfil]
      simp [hx]
  · simp only [Bool.not_eq_true] at hany
    simp only [hany, Bool.false_eq_true, if_false]
    rw [List.filter_append, filter_id_eq_nil hany]
    simp

/-- Committing a mutated object preserves the primary-key invariant. -/
theorem DB.mergeRow_wf (db : DB) (r : UserModel) (hwf : db.wf) :
    (db.mergeRow r).wf := by
  unfold DB.wf DB.mergeRow at *
  by_cases hany : db.rows.any (fun x => x.id == r.id) = true
  · simp only [hany, if_true]
    show ((db.rows.map (fun x => if x.id == r.id then r else x)).map UserModel.id).Nodup
    have hmap : (db.rows.map (fun x => if x.id == r.id then r else x)).map UserModel.id
        = db.rows.map UserModel.id := by
      rw [List.map_map]
      apply List.map_congr_left
      intro a _
      by_cases h : a.id = r.id
      · simp [Function.comp, h]
      · simp [Function.comp, h]
    rw [hmap]
    exact hwf
  · simp only [Bool.not_eq_true] at hany
    simp only [hany, Bool.false_eq_true, if_false]
    show ((db.rows ++ [r]).map UserModel.id).Nodup
    rw [List.map_append]
    have hnotin : r.id ∉ db.rows.map UserModel.id := by
      intro hmem
      rcases List.mem_map.mp hmem with ⟨x, hxmem, hxid⟩
      have hfalse := List.any_eq_false.mp hany x hxmem
      simp [hxid] at hfalse
    simp [List.nodup_append, hwf, hnotin]

/-- Reading the merged row's id back: visible with removed records included,
visible without them only when its marker is clear. -/
theorem CRUDBase.get_mergeRow (db : DB) (r : UserModel) (hwf : db.wf) (incl : Bool) :
    CRUDBase.get (db.mergeRow r) (some r.id) incl =
      if incl || r.deleted_at.isNone then some r else none := by
  have hg : CRUDBase.get (db.mergeRow r) (some r.id) incl =
      ((db.mergeRow r).rows.filter
        (fun x => x.id == r.id && (incl || x.deleted_at.isNone))).head? := rfl
  rw [hg]
  have hff : (db.mergeRow r).rows.filter
      (fun x => x.id == r.id && (incl || x.deleted_at.isNone)) =
      ((db.mergeRow r).rows.filter (fun x => x.id == r.id)).filter
        (fun x => incl || x.deleted_at.isNone) := by
    rw [List.filter_filter]
    apply List.filter_congr
    intro a _
    rw [Bool.and_comm]
  rw [hff, DB.mergeRow_filter db r hwf]
  by_cases h : (incl || r.deleted_at.isNone) = true
  · simp [List.filter, h]
  · simp only [Bool.not_eq_true] at h
    simp [List.filter, h]

/-- The repository soft delete always succeeds under the primary-key
invariant: it returns the marked object re-read post-commit. -/
theorem CRUDBase.soft_remove_eq (db : DB) (obj : UserModel) (hwf : db.wf) :
    CRUDBase.soft_remove db obj =
      .ok ({ obj with deleted_at := some db.now },
           db.mergeRow { obj with deleted_at := some db.now }) := by
  unfold CRUDBase.soft_remove
  have h := DB.mergeRow_filter db { obj with deleted_at := some db.now } hwf
  simp only [h]

/-- After a commit the merged object's id always resolves to at least one
row (no primary-key invariant needed). -/
theorem DB.mergeRow_filter_ne_nil (db : DB) (r : UserModel) :
    (db.mergeRow r).rows.filter (fun x => x.id == r.id) ≠ [] := by
  unfold DB.mergeRow
  by_cases hany : db.rows.any (fun x => x.id == r.id) = true
  · simp only [hany, if_true]
    intro hnil
    rcases List.any_eq_true.mp hany with ⟨x, hx, hxid⟩
    have hfx : (fun y => if y.id == r.id then r else y) x = r := by simp [hxid]
    have hr : r ∈ db.rows.map (fun y => if y.id == r.id then r else y) :=
      List.mem_map.mpr ⟨x, hx, hfx⟩
    have hmem : r ∈ (db.rows.map (fun y => if y.id == r.id then r else y)).filter
        (fun x => x.id == r.id) := List.mem_filter.mpr ⟨hr, by simp⟩
    rw [hnil] at hmem
    exact List.not_mem_nil r hmem
  · simp only [Bool.not_eq_true] at hany
    simp only [hany, Bool.false_eq_true, if_false]
    intro hnil
    have hmem : r ∈ (db.rows ++ [r]).filter (fun x => x.id == r.id) :=
      List.mem_filter.mpr ⟨by simp, by simp⟩
    rw [hnil] at hmem
    exact List.not_mem_nil r hmem

/-- The repository soft delete never raises `NoResultFound` (the re-read
follows its own commit) and never raises an `AttributeError`. -/
theorem CRUDBase.soft_remove_no_nrf (db : DB) (obj : UserModel) :
    CRUDBase.soft_remove db obj ≠ .error .noResultFound ∧
    CRUDBase.soft_remove db obj ≠ .error .attributeError := by
  have hne := DB.mergeRow_filter_ne_nil db { obj with deleted_at := some db.now }
  constructor <;>
  · simp only [CRUDBase.soft_remove]
    split
    · rename_i h
      exact absurd h hne
    · simp
    · simp

/-- The repository hard delete only fails with `NoResultFound` or
`MultipleResultsFound`; when a row with the requested id is visible through
a removed-records-visible read, `NoResultFound` is impossible. -/
theorem CRUDBase.remove_no_nrf_of_get (db : DB) (i : String) (o : UserModel)
    (h : CRUDBase.get db (some i) true = some o) :
    CRUDBase.remove db (some i) ≠ .error .noResultFound := by
  simp only [CRUDBase.get, Bool.true_or, Bool.and_true] at h
  have hne : db.rows.filter (fun r => r.id == i) ≠ [] := by
    intro hnil
    rw [hnil] at h
    simp at h
  simp only [CRUDBase.remove]
  split
  · rename_i heq
    exact absurd heq hne
  · simp
  · simp

/-- An `AttributeError` can never come out of the repository hard delete. -/
theorem CRUDBase.remove_no_attr (db : DB) (id_ : Option String) :
    CRUDBase.remove db id_ ≠ .error .attributeError := by
  cases id_ with
  | none => simp [CRUDBase.remove]
  | some i =>
    simp only [CRUDBase.remove]
    split
    · simp
    · simp
    · simp

/-- A successful repository create appends exactly the new record. -/
theorem CRUDBase.create_ok_rows (db : DB) (inp : UserCreate) (o : UserModel)
    (db2 : DB) (h : CRUDBase.create db inp = .ok (o, db2)) :
    db2.rows = db.rows ++ [o] ∧ db2.now = db.now := by
  simp only [CRUDBase.create] at h
  split_ifs at h with h1 h2
  simp only [Except.ok.injEq, Prod.mk.injEq] at h
  rcases h with ⟨ho, hdb⟩
  subst hdb
  subst ho
  exact ⟨rfl, rfl⟩

/-- The router's single-create helper succeeds exactly when the repository
create succeeds with the same payload (the defensive falsiness check never
fires on a model instance). -/
theorem BaseCRUDRouter.create_single_object_ok (e : Entity) (db : DB)
    (inp : UserCreate) (o : UserModel) (db2 : DB) :
    BaseCRUDRouter.create_single_object e db inp = .ok (o, db2) ↔
      CRUDBase.create db inp = .ok (o, db2) := by
  unfold BaseCRUDRouter.create_single_object CrudServiceBase.create
  constructor
  · intro h
    split at h
    · simp at h
    · rename_i obj db3 heq
      simp [modelTruthy] at h
      rcases h with ⟨ho, hdb⟩
      subst ho
      subst hdb
      exact heq
  · intro h
    rw [h]
    simp [modelTruthy]

/-- Rows already committed survive the rest of a batch create, whatever its
outcome. -/
theorem BaseCRUDRouter.create_multiple_rows_mono (e : Entity) (l : List UserCreate) :
    ∀ (db : DB) (r : UserModel), r ∈ db.rows →
      r ∈ (BaseCRUDRouter.create_multiple e db l).2.rows := by
  induction l with
  | nil =>
    intro db r hr
    exact hr
  | cons x rest ih =>
    intro db r hr
    simp only [BaseCRUDRouter.create_multiple]
    split
    · exact hr
    · rename_i obj db2 heq
      have hcr := (BaseCRUDRouter.create_single_object_ok e db x obj db2).mp heq
      have hr2 : r ∈ db2.rows := by
        rw [(CRUDBase.create_ok_rows db x obj db2 hcr).1]
        exact List.mem_append_left _ hr
      split
      · rename_i objs db3 heq2
        have hmono := ih db2 r hr2
        rw [heq2] at hmono
        exact hmono
      · rename_i err db3 heq2
        have hmono := ih db2 r hr2
        rw [heq2] at hmono
        exact hmono

/-- C1: for every soft-deleted entity, the repository restore clears the
soft-delete marker, commits, and the object it returns is exactly what a
post-commit read of that id under the removed-records-visible filter
returns — the caller observes post-commit truth, with the marker cleared.
(The source returns the mutated in-memory object without a literal re-read;
with `expire_on_commit=False` that object is extensionally the post-commit
record, which is what this theorem establishes.) -/
theorem restore_post_commit_truth (db : DB) (o : UserModel) (t : Nat)
    (hwf : db.wf) (_hd : o.deleted_at = some t) :
    (CRUDBase.restore db o).1.deleted_at = none ∧
    (CRUDBase.restore db o).1 = { o with deleted_at := none } ∧
    CRUDBase.get (CRUDBase.restore db o).2 (some o.id) true =
      some (CRUDBase.restore db o).1 := by
  refine ⟨rfl, rfl, ?_⟩
  have h := CRUDBase.get_mergeRow db { o with deleted_at := none } hwf true
  simpa using h

/-- Witness for C1: a concrete store with one soft-deleted record. -/
theorem restore_post_commit_truth_witness :
    dbOne.wf ∧ uAliceDel.deleted_at = some 3 ∧
    ((CRUDBase.restore dbOne uAliceDel).1.deleted_at = none ∧
     (CRUDBase.restore dbOne uAliceDel).1 = { uAliceDel with deleted_at := none } ∧
     CRUDBase.get (CRUDBase.restore dbOne uAliceDel).2 (some uAliceDel.id) true =
       some (CRUDBase.restore dbOne uAliceDel).1) :=
  ⟨by show (dbOne.rows.map UserModel.id).Nodup; decide, by decide,
    restore_post_commit_truth dbOne uAliceDel 3
      (by show (dbOne.rows.map UserModel.id).Nodup; decide) (by decide)⟩

/-- C2: soft-deleting (hard_remove = false) an id that resolves, with
removed records visible, to an already-soft-deleted entity fails with the
"already soft deleted" `BaseAppError` (the spec's InvalidState); the service
raises before reaching the repository soft_remove, nothing is committed (an
error outcome carries no successor store), and the failure is not a silent
no-op. -/
theorem delete_already_soft_deleted_invalid_state (e : Entity) (db : DB)
    (id_ : Option String) (o : UserModel) (t : Nat)
    (h : CRUDBase.get db id_ true = some o) (hd : o.deleted_at = some t) :
    CrudServiceBase.delete e db id_ false =
      .error (.baseAppError ("A " ++ e.value ++ " is already soft deleted.")) := by
  simp [CrudServiceBase.delete, CrudServiceBase.get, h, hd, Bind.bind, Except.bind]

/-- Witness for C2: deleting the already-soft-deleted record of `dbOne`. -/
theorem delete_already_soft_deleted_invalid_state_witness :
    CrudServiceBase.delete Entity.USER dbOne (some "u1") false =
      .error (.baseAppError "A User is already soft deleted.") :=
  delete_already_soft_deleted_invalid_state Entity.USER dbOne (some "u1")
    uAliceDel 3 (by decide) (by decide)

/-- C3: the service update first resolves the target with removed records
excluded; a missing id and a soft-deleted id alike fail with
`EntityNotFoundError` before any repository update happens (no implicit
resurrection), while an id resolving to an active entity delegates to the
repository update. -/
theorem update_requires_active_target (e : Entity) (db : DB)
    (id_ : Option String) (inp : UserUpdate) :
    (CRUDBase.get db id_ false = none →
      CrudServiceBase.update e db id_ inp = .error (.entityNotFound e id_)) ∧
    (∀ o, CRUDBase.get db id_ false = some o →
      CrudServiceBase.update e db id_ inp = CRUDBase.update db o inp) := by
  constructor
  · intro h
    simp [CrudServiceBase.update, CrudServiceBase.get, h, Bind.bind, Except.bind]
  · intro o h
    simp [CrudServiceBase.update, CrudServiceBase.get, h, Bind.bind, Except.bind]

/-- Witness for C3: the soft-deleted record of `dbOne` is invisible to the
update's resolution, so updating it fails with `EntityNotFoundError`. -/
theorem update_requires_active_target_witness :
    CrudServiceBase.update Entity.USER dbOne (some "u1") ⟨none, none, none, none⟩ =
      .error (.entityNotFound Entity.USER (some "u1")) :=
  (update_requires_active_target Entity.USER dbOne (some "u1")
    ⟨none, none, none, none⟩).1 (by decide)

/-- C4: restoring an id that resolves, with removed records visible, to an
entity that is not soft-deleted fails with the "was not soft deleted"
`BaseAppError` (the spec's InvalidState) — the failure happens before the
repository restore, so restoring an active record is an error, not a
no-op. -/
theorem restore_active_invalid_state (e : Entity) (db : DB)
    (id_ : Option String) (o : UserModel)
    (h : CRUDBase.get db id_ true = some o) (hd : o.deleted_at = none) :
    CrudServiceBase.restore e db id_ =
      .error (.baseAppError ("A " ++ e.value ++ " was not soft deleted.")) := by
  simp [CrudServiceBase.restore, CrudServiceBase.get, h, hd, Bind.bind, Except.bind]

/-- Witness for C4: restoring the active record of `dbActive`. -/
theorem restore_active_invalid_state_witness :
    CrudServiceBase.restore Entity.USER dbActive (some "u1") =
      .error (.baseAppError "A User was not soft deleted.") :=
  restore_active_invalid_state Entity.USER dbActive (some "u1") uAlice
    (by decide) (by decide)

/-- C5: the soft-delete / restore round trip.  For an active committed
entity: after soft_remove the id is absent from a default read and present,
with the marker set, in a removed-records-visible read; restoring the marked
record returns the original entity (identity on every field, the marker
restored to null), after which a default read sees it again. -/
theorem soft_remove_restore_round_trip (db : DB) (o : UserModel)
    (hwf : db.wf) (hmem : o ∈ db.rows) (ha : o.deleted_at = none) :
    ∃ db1 db2,
      CRUDBase.soft_remove db o = .ok ({ o with deleted_at := some db.now }, db1) ∧
      CRUDBase.get db1 (some o.id) false = none ∧
      CRUDBase.get db1 (some o.id) true = some { o with deleted_at := some db.now } ∧
      CRUDBase.restore db1 { o with deleted_at := some db.now } = (o, db2) ∧
      CRUDBase.get db2 (some o.id) false = some o := by
  obtain ⟨i, u, f, sn, m, d⟩ := o
  replace ha : d = none := ha
  subst ha
  refine ⟨db.mergeRow ⟨i, u, f, sn, m, some db.now⟩,
    (db.mergeRow ⟨i, u, f, sn, m, some db.now⟩).mergeRow ⟨i, u, f, sn, m, none⟩,
    CRUDBase.soft_remove_eq db ⟨i, u, f, sn, m, none⟩ hwf, ?_, ?_, rfl, ?_⟩
  · have h := CRUDBase.get_mergeRow db ⟨i, u, f, sn, m, some db.now⟩ hwf false
    simpa using h
  · have h := CRUDBase.get_mergeRow db ⟨i, u, f, sn, m, some db.now⟩ hwf true
    simpa using h
  · have hwf1 := DB.mergeRow_wf db ⟨i, u, f, sn, m, some db.now⟩ hwf
    have h := CRUDBase.get_mergeRow (db.mergeRow ⟨i, u, f, sn, m, some db.now⟩)
      ⟨i, u, f, sn, m, none⟩ hwf1 false
    simpa using h

/-- Witness for C5: the round trip on the active record of `dbActive`. -/
theorem soft_remove_restore_round_trip_witness :
    ∃ db1 db2,
      CRUDBase.soft_remove dbActive uAlice =
        .ok ({ uAlice with deleted_at := some dbActive.now }, db1) ∧
      CRUDBase.get db1 (some uAlice.id) false = none ∧
      CRUDBase.get db1 (some uAlice.id) true =
        some { uAlice with deleted_at := some dbActive.now } ∧
      CRUDBase.restore db1 { uAlice with deleted_at := some dbActive.now } = (uAlice, db2) ∧
      CRUDBase.get db2 (some uAlice.id) false = some uAlice :=
  soft_remove_restore_round_trip dbActive uAlice
    (by show (dbActive.rows.map UserModel.id).Nodup; decide) (by decide) (by decide)

/-- C6: the batch create is sequential and explicitly non-atomic: whenever
the first `k` inputs create successfully (leaving store `dbk` with their
records committed) and the `(k+1)`-st input fails, the whole batch request
fails with that error, the store stays exactly `dbk` (items 1..k remain
committed, each of their records is still a row of `dbk`), and the inputs
after position `k` are never attempted (the outcome is independent of
them). -/
theorem batch_create_non_atomic (e : Entity) (db : DB) (l : List UserCreate)
    (k : Nat) (hk : k < l.length) (objs : List UserModel) (dbk : DB)
    (err : AppError)
    (hpre : BaseCRUDRouter.create_multiple e db (l.take k) = (.ok objs, dbk))
    (hfail : BaseCRUDRouter.create_single_object e dbk (l.get ⟨k, hk⟩) = .error err) :
    BaseCRUDRouter.create_multiple e db l = (.error err, dbk) ∧
    ∀ o ∈ objs, o ∈ dbk.rows := by
  induction k generalizing db l objs with
  | zero =>
    have h0 : BaseCRUDRouter.create_multiple e db (l.take 0) = (.ok [], db) := rfl
    rw [h0] at hpre
    simp only [Prod.mk.injEq, Except.ok.injEq] at hpre
    rcases hpre with ⟨hobjs, hdb⟩
    subst hobjs
    subst hdb
    cases l with
    | nil => exact absurd hk (by simp)
    | cons x rest =>
      replace hfail : BaseCRUDRouter.create_single_object e db x = .error err := hfail
      refine ⟨?_, by simp⟩
      simp [BaseCRUDRouter.create_multiple, hfail]
  | succ k ih =>
    cases l with
    | nil => exact absurd hk (by simp)
    | cons x rest =>
      rw [List.take_succ_cons] at hpre
      cases hcso : BaseCRUDRouter.create_single_object e db x with
      | error err2 =>
        have hstep : BaseCRUDRouter.create_multiple e db (x :: rest.take k) =
            (.error err2, db) := by
          simp [BaseCRUDRouter.create_multiple, hcso]
        rw [hstep] at hpre
        simp at hpre
      | ok pair =>
        obtain ⟨o1, db1⟩ := pair
        have hstep : BaseCRUDRouter.create_multiple e db (x :: rest.take k) =
            (match BaseCRUDRouter.create_multiple e db1 (rest.take k) with
              | (.ok objs2, db3) => (.ok (o1 :: objs2), db3)
              | (.error err2, db3) => (.error err2, db3)) := by
          simp [BaseCRUDRouter.create_multiple, hcso]
        rw [hstep] at hpre
        cases hrec : BaseCRUDRouter.create_multiple e db1 (rest.take k) with
        | mk res db3 =>
          rw [hrec] at hpre
          cases res with
          | error err2 => simp at hpre
          | ok objs2 =>
            simp only [Prod.mk.injEq, Except.ok.injEq] at hpre
            rcases hpre with ⟨hobjs, hdb3⟩
            subst hobjs
            subst hdb3
            have hk2 : k < rest.length := Nat.lt_of_succ_lt_succ hk
            replace hfail : BaseCRUDRouter.create_single_object e db3
                (rest.get ⟨k, hk2⟩) = .error err := hfail
            have hmain := ih db1 rest hk2 objs2 hrec hfail
            have ho1 : o1 ∈ db1.rows := by
              have hcr := (BaseCRUDRouter.create_single_object_ok e db x o1 db1).mp hcso
              rw [(CRUDBase.create_ok_rows db x o1 db1 hcr).1]
              simp
            constructor
            · have hlast : BaseCRUDRouter.create_multiple e db (x :: rest) =
                  (match BaseCRUDRouter.create_multiple e db1 rest with
                    | (.ok objs2, db3) => (.ok (o1 :: objs2), db3)
                    | (.error err2, db3) => (.error err2, db3)) := by
                simp [BaseCRUDRouter.create_multiple, hcso]
              rw [hlast, hmain.1]
            · intro o ho
              rcases List.mem_cons.mp ho with rfl | ho2
              · have hmono := BaseCRUDRouter.create_multiple_rows_mono e rest db1 o ho1
                rw [hmain.1] at hmono
                exact hmono
              · exact hmain.2 o ho2

/-- Witness for C6: a concrete 3-input batch whose 2nd input duplicates the
username of the 1st — item 1 commits and stays, item 3 is never attempted. -/
theorem batch_create_non_atomic_witness :
    BaseCRUDRouter.create_multiple Entity.USER ⟨[], 5⟩ [cAlice, cBobDup, cCarol] =
      (.error (.integrityError ⟨some "uq_user_username",
        some (dupDetail "username" "alice"), dupText "username" "alice"⟩),
       ⟨[recAlice], 5⟩) ∧
    recAlice ∈ (⟨[recAlice], 5⟩ : DB).rows := by
  have h := batch_create_non_atomic Entity.USER ⟨[], 5⟩ [cAlice, cBobDup, cCarol] 1
    (by decide) [recAlice] ⟨[recAlice], 5⟩
    (.integrityError ⟨some "uq_user_username", some (dupDetail "username" "alice"),
      dupText "username" "alice"⟩) rfl rfl
  exact ⟨h.1, h.2 recAlice (by decide)⟩

/-- C9: the service read converts absence into failure at the layer
boundary: for every id and flag it either succeeds with a present (`some`)
entity or fails with `EntityNotFoundError`, and a successful value is never
`none`.  Hence the `None`-checks sitting after `self.get(...)` in the
service bodies are dead: restore and delete can never surface the
`AttributeError` of their `None` branches, and whenever the target resolves,
update delegates straight to the repository update. -/
theorem service_get_never_returns_absent :
    ∀ (e : Entity) (db : DB) (id_ : Option String) (incl : Bool),
      ((∃ r, CrudServiceBase.get e db id_ incl = .ok (some r)) ∨
        CrudServiceBase.get e db id_ incl = .error (.entityNotFound e id_)) ∧
      (∀ v, CrudServiceBase.get e db id_ incl = .ok v → v.isSome) ∧
      CrudServiceBase.restore e db id_ ≠ .error .attributeError ∧
      (∀ hr, CrudServiceBase.delete e db id_ hr ≠ .error .attributeError) := by
  intro e db id_ incl
  refine ⟨?_, ?_, ?_, ?_⟩
  · cases hg : CRUDBase.get db id_ incl with
    | none =>
      right
      simp [CrudServiceBase.get, hg]
    | some r =>
      left
      exact ⟨r, by simp [CrudServiceBase.get, hg]⟩
  · intro v hv
    cases hg : CRUDBase.get db id_ incl with
    | none => simp [CrudServiceBase.get, hg] at hv
    | some r =>
      simp [CrudServiceBase.get, hg] at hv
      subst hv
      rfl
  · cases hg : CRUDBase.get db id_ true with
    | none =>
      simp [CrudServiceBase.restore, CrudServiceBase.get, hg, Bind.bind, Except.bind]
    | some r =>
      by_cases hd : r.deleted_at.isNone
      · simp [CrudServiceBase.restore, CrudServiceBase.get, hg, hd, Bind.bind, Except.bind]
      · simp [CrudServiceBase.restore, CrudServiceBase.get, hg, hd, Bind.bind, Except.bind]
  · intro hr
    cases hg : CRUDBase.get db id_ true with
    | none =>
      simp [CrudServiceBase.delete, CrudServiceBase.get, hg, Bind.bind, Except.bind]
    | some r =>
      cases hr with
      | true =>
        have hremove := CRUDBase.remove_no_attr db id_
        simpa [CrudServiceBase.delete, CrudServiceBase.get, hg, Bind.bind, Except.bind]
          using hremove
      | false =>
        by_cases hd : r.deleted_at.isSome
        · simp [CrudServiceBase.delete, CrudServiceBase.get, hg, hd, Bind.bind, Except.bind]
        · have hsr := (CRUDBase.soft_remove_no_nrf db r).2
          simpa [CrudServiceBase.delete, CrudServiceBase.get, hg, hd, Bind.bind, Except.bind]
            using hsr

/-- Witness for C9: on a concrete store the read succeeds with a present
entity, and the implication conjunct is discharged at a concrete value. -/
theorem service_get_never_returns_absent_witness :
    ((∃ r, CrudServiceBase.get Entity.USER dbActive (some "u1") false = .ok (some r)) ∨
      CrudServiceBase.get Entity.USER dbActive (some "u1") false =
        .error (.entityNotFound Entity.USER (some "u1"))) ∧
    (Option.some uAlice).isSome :=
  ⟨(service_get_never_returns_absent Entity.USER dbActive (some "u1") false).1,
   (service_get_never_returns_absent Entity.USER dbActive (some "u1") false).2.1
     (some uAlice) rfl⟩

/-- C10: the service delete resolves the target (removed records visible)
before touching the repository: an id resolving to nothing fails with
`EntityNotFoundError` while the store is untouched (the error carries no
successor store), and consequently the repository-level `NoResultFound` of
the hard remove can never escape through the service delete. -/
theorem delete_resolves_before_remove (e : Entity) (db : DB)
    (id_ : Option String) (hr : Bool) :
    (CRUDBase.get db id_ true = none →
      CrudServiceBase.delete e db id_ hr = .error (.entityNotFound e id_)) ∧
    CrudServiceBase.delete e db id_ hr ≠ .error .noResultFound := by
  constructor
  · intro h
    simp [CrudServiceBase.delete, CrudServiceBase.get, h, Bind.bind, Except.bind]
  · cases hg : CRUDBase.get db id_ true with
    | none =>
      simp [CrudServiceBase.delete, CrudServiceBase.get, hg, Bind.bind, Except.bind]
    | some o =>
      cases hr with
      | true =>
        cases id_ with
        | none => simp [CRUDBase.get] at hg
        | some i =>
          have hremove := CRUDBase.remove_no_nrf_of_get db i o hg
          simpa [CrudServiceBase.delete, CrudServiceBase.get, hg, Bind.bind, Except.bind]
            using hremove
      | false =>
        by_cases hd : o.deleted_at.isSome
        · simp [CrudServiceBase.delete, CrudServiceBase.get, hg, hd, Bind.bind, Except.bind]
        · have hsr := (CRUDBase.soft_remove_no_nrf db o).1
          simpa [CrudServiceBase.delete, CrudServiceBase.get, hg, hd, Bind.bind, Except.bind]
            using hsr

/-- Witness for C10: deleting an unknown id from the empty store. -/
theorem delete_resolves_before_remove_witness :
    CrudServiceBase.delete Entity.USER ⟨[], 0⟩ (some "zz") false =
      .error (.entityNotFound Entity.USER (some "zz")) :=
  (delete_resolves_before_remove Entity.USER ⟨[], 0⟩ (some "zz") false).1 rfl

/-- C7 counterexample: the claim says the textual "duplicate key" fallback
is used only "when no structured constraint name is available", with every
other unmatched case classified as the default 400.  The code disagrees: on
an error carrying the structured constraint name "xx_weird" (present, but
matching none of the uq_/pk_/fk_/ck_ prefixes) together with a duplicate-key
detail text, the classifier still runs the textual parse and returns 409,
not the claimed default 400. -/
theorem parse_integrity_error_claim_counterexample :
    pyTruthyStr cexIntegrity.constraint_name = true ∧
    findConstraintRule (cexIntegrity.constraint_name.getD "") constraint_map = none ∧
    (parse_integrity_error cexIntegrity).1 = 409 :=
  ⟨rfl, rfl, rfl⟩

/-- C7 (amended): the classifier maps structured constraint names by prefix
— uq_ and pk_ to 409, fk_ and ck_ to 400; whenever no prefix rule fires
(the constraint name is absent, empty, or unrecognized) it falls back to the
textual parse of "duplicate key"-style messages, yielding 409 on a match and
the default 400 classification otherwise; and every integrity error the
repository create can raise (duplicate primary key or duplicate unique
username) classifies as 409. -/
theorem parse_integrity_error_classification (exc : IntegrityError) :
    (∀ c, exc.constraint_name = some c → c ≠ "" →
      ((charsStartWith c "uq_" = true →
          parse_integrity_error exc =
            (409, ⟨"Duplicate value for unique field(s).", some c, none, none⟩)) ∧
       (charsStartWith c "uq_" = false → charsStartWith c "pk_" = true →
          parse_integrity_error exc =
            (409, ⟨"Duplicate primary key.", some c, none, none⟩)) ∧
       (charsStartWith c "uq_" = false → charsStartWith c "pk_" = false →
          charsStartWith c "fk_" = true →
          parse_integrity_error exc =
            (400, ⟨"Invalid reference: related record not found.", some c, none, none⟩)) ∧
       (charsStartWith c "uq_" = false → charsStartWith c "pk_" = false →
          charsStartWith c "fk_" = false → charsStartWith c "ck_" = true →
          parse_integrity_error exc =
            (400, ⟨"Invalid value: violates check constraint.", some c, none, none⟩)))) ∧
    ((pyTruthyStr exc.constraint_name = false ∨
        findConstraintRule (exc.constraint_name.getD "") constraint_map = none) →
      ((∀ f v, searchDetailKey exc.text = some (f, v) →
          parse_integrity_error exc =
            (409, ⟨"Duplicate value for field(s): " ++ f, none, some f, some v⟩)) ∧
       (searchDetailKey exc.text = none → (parse_integrity_error exc).1 = 400))) ∧
    (∀ (db : DB) (inp : UserCreate) (exc2 : IntegrityError),
      CRUDBase.create db inp = .error (.integrityError exc2) →
      (parse_integrity_error exc2).1 = 409) := by
  refine ⟨?_, ?_, ?_⟩
  · intro c hc hcne
    have hpt : pyTruthyStr (some c) = true := by
      simp [pyTruthyStr, hcne]
    refine ⟨?_, ?_, ?_, ?_⟩
    · intro h1
      simp [parse_integrity_error, hc, hpt, findConstraintRule, constraint_map, h1]
    · intro h1 h2
      simp [parse_integrity_error, hc, hpt, findConstraintRule, constraint_map, h1, h2]
    · intro h1 h2 h3
      simp [parse_integrity_error, hc, hpt, findConstraintRule, constraint_map, h1, h2, h3]
    · intro h1 h2 h3 h4
      simp [parse_integrity_error, hc, hpt, findConstraintRule, constraint_map,
        h1, h2, h3, h4]
  · intro hcond
    constructor
    · intro f v hs
      rcases hcond with hfalse | hnone
      · simp [parse_integrity_error, hfalse, hs]
      · by_cases hpt : pyTruthyStr exc.constraint_name = true
        · simp [parse_integrity_error, hpt, hnone, hs]
        · simp only [Bool.not_eq_true] at hpt
          simp [parse_integrity_error, hpt, hs]
    · intro hs
      rcases hcond with hfalse | hnone
      · simp [parse_integrity_error, hfalse, hs]
      · by_cases hpt : pyTruthyStr exc.constraint_name = true
        · simp [parse_integrity_error, hpt, hnone, hs]
        · simp only [Bool.not_eq_true] at hpt
          simp [parse_integrity_error, hpt, hs]
  · intro db inp exc2 h
    simp only [CRUDBase.create] at h
    split_ifs at h with h1 h2 <;> simp only [Except.error.injEq,
      AppError.integrityError.injEq] at h
    · rw [← h]
      rfl
    · rw [← h]
      rfl

/-- Witness for C7 (amended): a uq_-prefixed constraint name classifies as
a 409 duplicate-unique conflict. -/
theorem parse_integrity_error_classification_witness :
    parse_integrity_error ⟨some "uq_user_username", none, ""⟩ =
      (409, ⟨"Duplicate value for unique field(s).", some "uq_user_username",
        none, none⟩) :=
  ((parse_integrity_error_classification ⟨some "uq_user_username", none, ""⟩).1
    "uq_user_username" rfl (by decide)).1 rfl

/-- C8 counterexample: `get_multi` is not newest-first.  Ids default to
random 128-bit hex (`uuid4().hex`), so `ORDER BY id DESC` does not follow
creation order: in a store where the older record got id "ff" and the newer
record id "aa", `get_multi` returns the older record first, while the
newest-first order required by the claim returns the newer record first. -/
theorem get_multi_not_newest_first_counterexample :
    CRUDBase.get_multi dbC8 0 100 ≠ spec_get_multi_newest_first dbC8 0 100 := by
  decide

/-- C8 (amended): `get_multi` returns the non-soft-deleted records ordered
by id descending (a lexicographic text order over random hex ids, not
creation time), paginated with offset `skip` and page size `limit`: every
returned record is an active row of the store, the output is sorted by id
descending, and at most `limit` records are returned. -/
theorem get_multi_ordered_paginated_excludes_removed (db : DB) (skip limit : Nat) :
    (∀ r ∈ CRUDBase.get_multi db skip limit, r.deleted_at = none ∧ r ∈ db.rows) ∧
    (CRUDBase.get_multi db skip limit).Pairwise (fun a b => strLeb b.id a.id = true) ∧
    (CRUDBase.get_multi db skip limit).length ≤ limit := by
  have hsub : List.Sublist (CRUDBase.get_multi db skip limit)
      (sortByIdDesc (db.rows.filter (fun r => r.deleted_at.isNone))) :=
    (List.take_sublist _ _).trans (List.drop_sublist _ _)
  refine ⟨?_, ?_, ?_⟩
  · intro r hr
    have hmem : r ∈ sortByIdDesc (db.rows.filter (fun r => r.deleted_at.isNone)) :=
      hsub.subset hr
    have hmem2 : r ∈ db.rows.filter (fun r => r.deleted_at.isNone) :=
      mem_sortByIdDesc.mp hmem
    rcases List.mem_filter.mp hmem2 with ⟨hmemr, hpred⟩
    exact ⟨Option.isNone_iff_eq_none.mp hpred, hmemr⟩
  · exact List.Pairwise.sublist hsub
      (pairwise_sortByIdDesc (db.rows.filter (fun r => r.deleted_at.isNone)))
  · exact List.length_take_le _ _

/-- Witness for C8 (amended): a concrete record returned by a concrete
`get_multi` call is active and comes from the store. -/
theorem get_multi_ordered_paginated_excludes_removed_witness :
    rFF.deleted_at = none ∧ rFF ∈ dbC8.rows :=
  (get_multi_ordered_paginated_excludes_removed dbC8 0 100).1 rFF (by decide)
